import Mathlib

/-!
Shallow embedding of `filebox` (src/src/lib.rs): a `FileBox<T>` stores a value
in memory together with an open file handle, reads the value from the file at
`open`, and writes it back in its destructor (`Drop`).

The filesystem is modelled at the path level: a list of `(path, contents)`
pairs.  A file handle is identified by the path it was opened at.  Following
POSIX semantics (the library's tests run on Unix), writing through a handle
whose path has been unlinked succeeds but does not affect any path's contents.
Every operation also appends to an event trace recording the externally
visible filesystem actions (truncating open, reading open, encode, write,
unlink), which lets frame claims ("no flush happens here") be stated.

The codec is the external `bincode` pair: `Encodable`/`Decodable` in the
source both use `IoError` as their error type, so both `encode` and `decode`
are modelled as returning `Except IoErrorKind`.  Error values are modelled by
their kind, mirroring `std::io::IoError`'s `kind` field: opening a missing
file yields `fileNotFound`, while the decoder's own failures (empty input,
malformed bytes) yield `endOfFile` / `invalidInput`.
-/

abbrev FbPath := String
abbrev Bytes := List Nat

/-- The kinds of `std::io::IoError` this library can surface. -/
inductive IoErrorKind where
  | fileNotFound
  | endOfFile
  | invalidInput
  | otherIo
deriving DecidableEq

/-- Externally visible filesystem / codec actions, for frame claims. -/
inductive Event where
  | truncOpen (p : FbPath)
  | readOpen (p : FbPath)
  | encoded (b : Bytes)
  | encodeFailed
  | wrote (p : FbPath) (b : Bytes)
  | unlinked (p : FbPath)
deriving DecidableEq

/-- Contents of the file at `p`, or `none` when no file exists there. -/
def lookupFile : List (FbPath × Bytes) → FbPath → Option Bytes
  | [], _ => none
  | (q, b) :: rest, p => if q = p then some b else lookupFile rest p

/-- Create the file at `p` with contents `b`, or replace its contents. -/
def setFile : List (FbPath × Bytes) → FbPath → Bytes → List (FbPath × Bytes)
  | [], p, b => [(p, b)]
  | (q, c) :: rest, p, b =>
      if q = p then (q, b) :: rest else (q, c) :: setFile rest p b

/-- Remove the directory entry at `p`. -/
def removeFile : List (FbPath × Bytes) → FbPath → List (FbPath × Bytes)
  | [], _ => []
  | (q, c) :: rest, p =>
      if q = p then removeFile rest p else (q, c) :: removeFile rest p

/-- Filesystem state plus the trace of actions performed so far. -/
structure World where
  files : List (FbPath × Bytes)
  trace : List Event
deriving DecidableEq

/-- `p.exists()` from `std::io::fs::PathExtensions`. -/
def pathExists (w : World) (p : FbPath) : Bool :=
  (lookupFile w.files p).isSome

/-- `File::open_mode(p, io::Truncate, io::Write)`: creates the file or
discards its contents immediately, returning a write handle.  (Environmental
failures such as permissions are outside the model: it always succeeds.) -/
def openTruncWrite (w : World) (p : FbPath) : Except IoErrorKind FbPath × World :=
  (.ok p, ⟨setFile w.files p [], w.trace ++ [.truncOpen p]⟩)

/-- `File::open_mode(p, io::Open, io::Read)`: fails with `FileNotFound` when
no file exists at `p`. -/
def openRead (w : World) (p : FbPath) : Except IoErrorKind FbPath × World :=
  if (lookupFile w.files p).isSome then
    (.ok p, ⟨w.files, w.trace ++ [.readOpen p]⟩)
  else
    (.error .fileNotFound, w)

/-- Reading the full contents through an open read handle. -/
def readAll (w : World) (h : FbPath) : Except IoErrorKind Bytes × World :=
  match lookupFile w.files h with
  | some b => (.ok b, w)
  | none => (.error .fileNotFound, w)

/-- `File::write` on a truncating write handle.  If the handle's path has
been unlinked in the meantime the write still succeeds (POSIX: the inode is
alive until the handle closes) but no path's contents change. -/
def writeHandle (w : World) (h : FbPath) (b : Bytes) : Except IoErrorKind Unit × World :=
  match lookupFile w.files h with
  | some _ => (.ok (), ⟨setFile w.files h b, w.trace ++ [.wrote h b]⟩)
  | none => (.ok (), ⟨w.files, w.trace ++ [.wrote h b]⟩)

/-- `fs::unlink(p)`: removes the directory entry, failing with
`FileNotFound` when there is none. -/
def unlink (w : World) (p : FbPath) : Except IoErrorKind Unit × World :=
  if (lookupFile w.files p).isSome then
    (.ok (), ⟨removeFile w.files p, w.trace ++ [.unlinked p]⟩)
  else
    (.error .fileNotFound, w)

/-- The external codec pair.  In the source both directions use `IoError` as
their error type (`Encodable<EncoderWriter<MemWriter>, IoError>`,
`Decodable<DecoderReader<BufferedReader<File>>, IoError>`). -/
structure Codec (T : Type) where
  encode : T → Except IoErrorKind Bytes
  decode : Bytes → Except IoErrorKind T

/-- A small concrete bincode-like codec for `Nat`, used for witnesses:
`encode n = [1, n]`; decoding ignores trailing bytes (as `decode_from`
does), fails with `EndOfFile` on empty input and `InvalidInput` on a bad
leading byte. -/
def NatCodec : Codec Nat where
  encode n := .ok [1, n]
  decode b :=
    match b with
    | [] => .error .endOfFile
    | 1 :: n :: _ => .ok n
    | _ => .error .invalidInput

/-- `pub struct FileBox<T> { _file: File, _val: T }` — the handle is
identified by the path it was opened at. -/
structure FileBox (T : Type) where
  _file : FbPath
  _val : T

/-- `FileBox::open_new(p, val)` (lib.rs:45-50): opens `p` in truncating
write mode and stores `val` in memory; nothing is written yet. -/
def FileBox.open_new {T : Type} (w : World) (p : FbPath) (val : T) :
    Except IoErrorKind (FileBox T) × World :=
  match openTruncWrite w p with
  | (.error e, w1) => (.error e, w1)
  | (.ok h, w1) => (.ok ⟨h, val⟩, w1)

/-- `bincode::decode_from(&mut BufferedReader::new(f))`: read the handle's
contents and decode them. -/
def decode_from {T : Type} (C : Codec T) (w : World) (h : FbPath) :
    Except IoErrorKind T × World :=
  match readAll w h with
  | (.error e, w1) => (.error e, w1)
  | (.ok bytes, w1) => (C.decode bytes, w1)

/-- `FileBox::open(p)` (lib.rs:54-62): open for reading, decode the
contents, then reopen the path in truncating write mode (discarding the
on-disk bytes) and keep that handle with the decoded value. -/
def FileBox.«open» {T : Type} (C : Codec T) (w : World) (p : FbPath) :
    Except IoErrorKind (FileBox T) × World :=
  match openRead w p with
  | (.error e, w1) => (.error e, w1)
  | (.ok f1, w1) =>
    match decode_from C w1 f1 with
    | (.error e, w2) => (.error e, w2)
    | (.ok val, w2) =>
      match openTruncWrite w2 p with
      | (.error e, w3) => (.error e, w3)
      | (.ok f2, w3) => (.ok ⟨f2, val⟩, w3)

/-- Whether the destructor returned normally or panicked. -/
inductive DropOutcome where
  | completed
  | panicked
deriving DecidableEq

/-- `Drop for FileBox` (lib.rs:102-109):
`self._file.write(bincode::encode(&self._val).unwrap().as_slice()).ok().expect(...)`.
`writeFails` is the environment's answer for the `write` call (disk full,
closed pipe, ...): on `Err` the `expect` panics, as does the `unwrap` when
`encode` fails. -/
def FileBox.dropWith {T : Type} (C : Codec T) (writeFails : Bool)
    (fb : FileBox T) (w : World) : DropOutcome × World :=
  match C.encode fb._val with
  | .error _ => (.panicked, { w with trace := w.trace ++ [.encodeFailed] })
  | .ok bytes =>
    let w1 : World := { w with trace := w.trace ++ [.encoded bytes] }
    if writeFails then (.panicked, w1)
    else (.completed, (writeHandle w1 fb._file bytes).2)

/-- The destructor in a normally behaving environment (the write succeeds
whenever attempted). -/
def FileBox.drop {T : Type} (C : Codec T) (fb : FileBox T) (w : World) :
    DropOutcome × World :=
  FileBox.dropWith C false fb w

/-- `FileBox::delete(self)` (lib.rs:66-68): `fs::unlink(self._file.path())`.
`self` is consumed without `mem::forget`, so when `delete` returns, `self`
goes out of scope and `Drop` runs: the value is encoded and written through
the (normally already unlinked) handle.  The returned pair carries the
`unlink` result and the destructor's outcome. -/
def FileBox.delete {T : Type} (C : Codec T) (fb : FileBox T) (w : World) :
    (Except IoErrorKind Unit × DropOutcome) × World :=
  let r := unlink w fb._file
  let d := FileBox.drop C fb r.2
  ((r.1, d.1), d.2)

/-- `FileBox::new(p)` (lib.rs:75-77): `FileBox::open_new(p, Default::default())`. -/
def FileBox.new {T : Type} [Inhabited T] (w : World) (p : FbPath) :
    Except IoErrorKind (FileBox T) × World :=
  FileBox.open_new w p (default : T)

/-- `FileBox::open_or_new(p)` (lib.rs:81-87): `open` when `p.exists()`,
otherwise `new`. -/
def FileBox.open_or_new {T : Type} (C : Codec T) [Inhabited T] (w : World) (p : FbPath) :
    Except IoErrorKind (FileBox T) × World :=
  if pathExists w p then FileBox.«open» C w p else FileBox.new w p

/-- `Deref for FileBox` (lib.rs:90-94): `&self._val`.  Takes only `&self`,
so the filesystem is not an argument. -/
def FileBox.deref {T : Type} (fb : FileBox T) : T :=
  fb._val

/-- `DerefMut for FileBox` (lib.rs:96-100): `&mut self._val`.  Writing `v`
through the returned reference replaces `_val`; the world is threaded
unchanged because the source function receives only `&mut self` and
performs no I/O. -/
def FileBox.deref_mut_write {T : Type} (fb : FileBox T) (v : T) (w : World) :
    FileBox T × World :=
  ({ fb with _val := v }, w)

theorem lookupFile_setFile_self (l : List (FbPath × Bytes)) (p : FbPath) (b : Bytes) :
    lookupFile (setFile l p b) p = some b := by
  induction l with
  | nil => simp [setFile, lookupFile]
  | cons hd tl ih =>
    by_cases h : hd.1 = p
    · simp [setFile, lookupFile, h]
    · simp [setFile, lookupFile, h, ih]

theorem lookupFile_removeFile_self (l : List (FbPath × Bytes)) (p : FbPath) :
    lookupFile (removeFile l p) p = none := by
  induction l with
  | nil => simp [removeFile, lookupFile]
  | cons hd tl ih =>
    by_cases h : hd.1 = p
    · simp [removeFile, h, ih]
    · simp [removeFile, lookupFile, h, ih]

/-- C1: creating a box with `open_new(p, v)`, letting the destructor flush
it, and then `open(p)` succeeds and yields a box whose value equals `v`,
provided the codec encodes `v` to bytes that decode back to `v`. -/
theorem C1_round_trip {T : Type} (C : Codec T) (w : World) (p : FbPath)
    (v : T) (bv : Bytes)
    (henc : C.encode v = .ok bv) (hdec : C.decode bv = .ok v) :
    ∃ (fb fb' : FileBox T),
      (FileBox.open_new w p v).1 = .ok fb
      ∧ (FileBox.drop C fb (FileBox.open_new w p v).2).1 = .completed
      ∧ (FileBox.«open» C
          (FileBox.drop C fb (FileBox.open_new w p v).2).2 p).1 = .ok fb'
      ∧ fb'._val = v := by
  refine ⟨⟨p, v⟩, ⟨p, v⟩, ?_, ?_, ?_, rfl⟩
  · simp [FileBox.open_new, openTruncWrite]
  · simp [FileBox.drop, FileBox.dropWith, henc]
  · simp [FileBox.open_new, openTruncWrite, FileBox.drop, FileBox.dropWith,
      henc, writeHandle, lookupFile_setFile_self, FileBox.«open», openRead,
      decode_from, readAll, hdec]

theorem C1_round_trip_witness :
    NatCodec.encode 5 = .ok [1, 5] ∧ NatCodec.decode [1, 5] = .ok 5
    ∧ ∃ (fb fb' : FileBox Nat),
        (FileBox.open_new ⟨[], []⟩ "p" 5).1 = .ok fb
        ∧ (FileBox.drop NatCodec fb (FileBox.open_new ⟨[], []⟩ "p" 5).2).1 = .completed
        ∧ (FileBox.«open» NatCodec
            (FileBox.drop NatCodec fb (FileBox.open_new ⟨[], []⟩ "p" 5).2).2 "p").1 = .ok fb'
        ∧ fb'._val = 5 :=
  ⟨rfl, rfl, C1_round_trip NatCodec ⟨[], []⟩ "p" 5 [1, 5] rfl rfl⟩

/-- C2: creating a box with `v0`, overwriting the value in place with `v1`
through `DerefMut`, letting the destructor flush, and reopening the path
yields `v1` and not `v0`. -/
theorem C2_mutate_then_persist {T : Type} (C : Codec T) (w : World) (p : FbPath)
    (v0 v1 : T) (b1 : Bytes) (hne : v0 ≠ v1)
    (henc : C.encode v1 = .ok b1) (hdec : C.decode b1 = .ok v1) :
    ∃ (fb fbm fb' : FileBox T),
      (FileBox.open_new w p v0).1 = .ok fb
      ∧ FileBox.deref_mut_write fb v1 (FileBox.open_new w p v0).2
          = (fbm, (FileBox.open_new w p v0).2)
      ∧ (FileBox.drop C fbm (FileBox.open_new w p v0).2).1 = .completed
      ∧ (FileBox.«open» C
          (FileBox.drop C fbm (FileBox.open_new w p v0).2).2 p).1 = .ok fb'
      ∧ fb'._val = v1 ∧ fb'._val ≠ v0 := by
  refine ⟨⟨p, v0⟩, ⟨p, v1⟩, ⟨p, v1⟩, ?_, ?_, ?_, ?_, rfl, ?_⟩
  · simp [FileBox.open_new, openTruncWrite]
  · simp [FileBox.deref_mut_write]
  · simp [FileBox.drop, FileBox.dropWith, henc]
  · simp [FileBox.open_new, openTruncWrite, FileBox.drop, FileBox.dropWith,
      henc, writeHandle, lookupFile_setFile_self, FileBox.«open», openRead,
      decode_from, readAll, hdec]
  · simpa using fun h => hne h.symm

theorem C2_mutate_then_persist_witness :
    (3 : Nat) ≠ 4 ∧ NatCodec.encode 4 = .ok [1, 4] ∧ NatCodec.decode [1, 4] = .ok 4
    ∧ ∃ (fb fbm fb' : FileBox Nat),
        (FileBox.open_new ⟨[], []⟩ "p" 3).1 = .ok fb
        ∧ FileBox.deref_mut_write fb 4 (FileBox.open_new ⟨[], []⟩ "p" 3).2
            = (fbm, (FileBox.open_new ⟨[], []⟩ "p" 3).2)
        ∧ (FileBox.drop NatCodec fbm (FileBox.open_new ⟨[], []⟩ "p" 3).2).1 = .completed
        ∧ (FileBox.«open» NatCodec
            (FileBox.drop NatCodec fbm (FileBox.open_new ⟨[], []⟩ "p" 3).2).2 "p").1 = .ok fb'
        ∧ fb'._val = 4 ∧ fb'._val ≠ 3 :=
  ⟨by decide, rfl, rfl,
    C2_mutate_then_persist NatCodec ⟨[], []⟩ "p" 3 4 [1, 4] (by decide) rfl rfl⟩

/-- C9: `FileBox::new(p)` is exactly `FileBox::open_new(p, default)`: the
source delegates, so the two produce identical results and errors on every
world and path. -/
theorem C9_new_is_open_new_default (T : Type) [Inhabited T] (w : World) (p : FbPath) :
    FileBox.new (T := T) w p = FileBox.open_new w p (default : T) := rfl

/-- C10: `Deref` returns exactly the stored value, a write through
`DerefMut` replaces only the stored value (same handle), neither touches
the world (filesystem and trace unchanged), and reading back right after
writing `v` yields `v`. -/
theorem C10_deref_frame {T : Type} (fb : FileBox T) (v : T) (w : World) :
    FileBox.deref fb = fb._val
    ∧ (FileBox.deref_mut_write fb v w).1._val = v
    ∧ (FileBox.deref_mut_write fb v w).1._file = fb._file
    ∧ (FileBox.deref_mut_write fb v w).2 = w
    ∧ FileBox.deref (FileBox.deref_mut_write fb v w).1 = v := by
  refine ⟨rfl, rfl, rfl, rfl, rfl⟩

/-- C3 counterexample: deleting a box does NOT skip the flush.  `delete`
consumes `self` without forgetting it, so when `delete` returns, the
destructor runs: it encodes the current value and writes it through the
(already unlinked) handle.  Concretely, deleting the box at "p" holding 5
leaves both an encode event and a write event on the trace, contradicting
"no encode and no write of the current value occurs on this path". -/
theorem C3_counterexample :
    Event.encoded [1, 5] ∈ (FileBox.delete NatCodec ⟨"p", 5⟩ ⟨[("p", [])], []⟩).2.trace
    ∧ Event.wrote "p" [1, 5]
        ∈ (FileBox.delete NatCodec ⟨"p", 5⟩ ⟨[("p", [])], []⟩).2.trace := by
  constructor <;>
    simp [FileBox.delete, FileBox.drop, FileBox.dropWith, unlink, writeHandle,
      NatCodec, lookupFile, removeFile]

/-- C3 amended: `delete` removes the backing file and the discarded value
never reaches the path — `delete` succeeds, afterwards no file exists at
the handle's path, and the filesystem is exactly the original one with the
entry removed — but a flush does still run on this destruction path: the
destructor encodes the value and writes it through the now-unlinked
handle, leaving encode and write events (with no effect on any path's
contents). -/
theorem C3_delete_removes_file_but_flushes_dead_handle {T : Type} (C : Codec T)
    (fb : FileBox T) (w : World) (b0 be : Bytes)
    (hex : lookupFile w.files fb._file = some b0)
    (henc : C.encode fb._val = .ok be) :
    (FileBox.delete C fb w).1 = (.ok (), .completed)
    ∧ lookupFile ((FileBox.delete C fb w).2).files fb._file = none
    ∧ ((FileBox.delete C fb w).2).files = removeFile w.files fb._file
    ∧ Event.encoded be ∈ ((FileBox.delete C fb w).2).trace
    ∧ Event.wrote fb._file be ∈ ((FileBox.delete C fb w).2).trace := by
  simp [FileBox.delete, unlink, hex, FileBox.drop, FileBox.dropWith, henc,
    writeHandle, lookupFile_removeFile_self]

theorem C3_delete_removes_file_but_flushes_dead_handle_witness :
    lookupFile [("p", [1, 9])] "p" = some [1, 9]
    ∧ NatCodec.encode (5 : Nat) = .ok [1, 5]
    ∧ ((FileBox.delete NatCodec ⟨"p", 5⟩ ⟨[("p", [1, 9])], []⟩).1 = (.ok (), .completed)
      ∧ lookupFile ((FileBox.delete NatCodec ⟨"p", 5⟩ ⟨[("p", [1, 9])], []⟩).2).files "p" = none
      ∧ ((FileBox.delete NatCodec ⟨"p", 5⟩ ⟨[("p", [1, 9])], []⟩).2).files
          = removeFile [("p", [1, 9])] "p"
      ∧ Event.encoded [1, 5] ∈ ((FileBox.delete NatCodec ⟨"p", 5⟩ ⟨[("p", [1, 9])], []⟩).2).trace
      ∧ Event.wrote "p" [1, 5]
          ∈ ((FileBox.delete NatCodec ⟨"p", 5⟩ ⟨[("p", [1, 9])], []⟩).2).trace) :=
  ⟨by simp [lookupFile], rfl,
    C3_delete_removes_file_but_flushes_dead_handle NatCodec ⟨"p", 5⟩
      ⟨[("p", [1, 9])], []⟩ [1, 9] [1, 5] (by simp [lookupFile]) rfl⟩

/-- C4 counterexample: the claimed invariant fails immediately after
construction.  Starting from a file at "p" whose bytes `[1, 7]` are a valid
encoding (of 7), `open_new` at "p" truncates the file to empty, and the
empty byte string is not a valid encoding of any `Nat` (`decode []` fails),
so the on-disk bytes are not an encoding of any past value. -/
theorem C4_counterexample :
    lookupFile ((FileBox.open_new (⟨[("p", [1, 7])], []⟩ : World) "p" (5 : Nat)).2).files "p"
      = some []
    ∧ ¬ ∃ t : Nat, NatCodec.decode [] = .ok t := by
  constructor
  · simp [FileBox.open_new, openTruncWrite, setFile, lookupFile]
  · rintro ⟨t, h⟩
    simp [NatCodec] at h

/-- C4 amended: between successful construction and the destructor's flush
the backing file is truncated to empty — not a valid encoding of any value
when the codec rejects empty input — and the on-disk bytes become a valid
encoding of the in-memory value only once the destructor has flushed. -/
theorem C4_truncated_until_flush {T : Type} (C : Codec T) (w : World) (p : FbPath)
    (v : T) (bv : Bytes)
    (henc : C.encode v = .ok bv) (hdec : C.decode bv = .ok v)
    (hempty : ∀ t : T, ¬ C.decode [] = .ok t) :
    ∃ fb : FileBox T,
      (FileBox.open_new w p v).1 = .ok fb
      ∧ lookupFile ((FileBox.open_new w p v).2).files p = some []
      ∧ (∀ t : T, ¬ C.decode [] = .ok t)
      ∧ lookupFile ((FileBox.drop C fb (FileBox.open_new w p v).2).2).files p = some bv
      ∧ C.decode bv = .ok v := by
  refine ⟨⟨p, v⟩, ?_, ?_, hempty, ?_, hdec⟩
  · simp [FileBox.open_new, openTruncWrite]
  · simp [FileBox.open_new, openTruncWrite, lookupFile_setFile_self]
  · simp [FileBox.open_new, openTruncWrite, FileBox.drop, FileBox.dropWith,
      henc, writeHandle, lookupFile_setFile_self]

theorem C4_truncated_until_flush_witness :
    NatCodec.encode 5 = .ok [1, 5] ∧ NatCodec.decode [1, 5] = .ok 5
    ∧ (∀ t : Nat, ¬ NatCodec.decode [] = .ok t)
    ∧ ∃ fb : FileBox Nat,
        (FileBox.open_new ⟨[], []⟩ "p" 5).1 = .ok fb
        ∧ lookupFile ((FileBox.open_new ⟨[], []⟩ "p" 5).2).files "p" = some []
        ∧ (∀ t : Nat, ¬ NatCodec.decode [] = .ok t)
        ∧ lookupFile
            ((FileBox.drop NatCodec fb (FileBox.open_new ⟨[], []⟩ "p" 5).2).2).files "p"
            = some [1, 5]
        ∧ NatCodec.decode [1, 5] = .ok 5 :=
  ⟨rfl, rfl, fun t h => by simp [NatCodec] at h,
    C4_truncated_until_flush NatCodec ⟨[], []⟩ "p" 5 [1, 5] rfl rfl
      (fun t h => by simp [NatCodec] at h)⟩

/-- C5: when a file exists at the box's path, `delete` returns success,
after it the backing file no longer exists, and a subsequent `open` of the
same path fails with a FileNotFound I/O error rather than succeeding. -/
theorem C5_deletion_finality {T : Type} (C : Codec T) (fb : FileBox T)
    (w : World) (b0 : Bytes)
    (hex : lookupFile w.files fb._file = some b0) :
    (FileBox.delete C fb w).1.1 = .ok ()
    ∧ lookupFile ((FileBox.delete C fb w).2).files fb._file = none
    ∧ (FileBox.«open» C (FileBox.delete C fb w).2 fb._file).1
        = .error .fileNotFound := by
  have hfiles : ((FileBox.delete C fb w).2).files = removeFile w.files fb._file := by
    cases h : C.encode fb._val with
    | error e =>
      simp [FileBox.delete, unlink, hex, FileBox.drop, FileBox.dropWith, h]
    | ok b =>
      simp [FileBox.delete, unlink, hex, FileBox.drop, FileBox.dropWith, h,
        writeHandle, lookupFile_removeFile_self]
  have hnone : lookupFile ((FileBox.delete C fb w).2).files fb._file = none := by
    rw [hfiles]
    exact lookupFile_removeFile_self _ _
  refine ⟨?_, hnone, ?_⟩
  · simp [FileBox.delete, unlink, hex]
  · simp [FileBox.«open», openRead, hnone]

theorem C5_deletion_finality_witness :
    lookupFile [("p", [1, 5])] "p" = some [1, 5]
    ∧ ((FileBox.delete NatCodec ⟨"p", 5⟩ ⟨[("p", [1, 5])], []⟩).1.1 = .ok ()
      ∧ lookupFile ((FileBox.delete NatCodec ⟨"p", 5⟩ ⟨[("p", [1, 5])], []⟩).2).files "p" = none
      ∧ (FileBox.«open» NatCodec
          (FileBox.delete NatCodec ⟨"p", 5⟩ ⟨[("p", [1, 5])], []⟩).2 "p").1
          = .error .fileNotFound) :=
  ⟨by simp [lookupFile],
    C5_deletion_finality NatCodec ⟨"p", 5⟩ ⟨[("p", [1, 5])], []⟩ [1, 5]
      (by simp [lookupFile])⟩

/-- C6: when the file at `p` exists but its bytes fail to decode, `open`
fails with exactly the decoder's error — whose kind (EndOfFile on an empty
file, InvalidInput on malformed bytes) is distinct from the FileNotFound
kind produced for unopenable files — and never yields a box. -/
theorem C6_corrupt_file_rejected {T : Type} (C : Codec T) (w : World) (p : FbPath)
    (bytes : Bytes) (e : IoErrorKind)
    (hfile : lookupFile w.files p = some bytes)
    (hdec : C.decode bytes = .error e) (hne : e ≠ .fileNotFound) :
    (FileBox.«open» C w p).1 = .error e
    ∧ e ≠ .fileNotFound
    ∧ ∀ fb : FileBox T, (FileBox.«open» C w p).1 ≠ .ok fb := by
  have h1 : (FileBox.«open» C w p).1 = .error e := by
    simp [FileBox.«open», openRead, hfile, decode_from, readAll, hdec]
  exact ⟨h1, hne, fun fb hh => by rw [h1] at hh; cases hh⟩

theorem C6_corrupt_file_rejected_witness :
    lookupFile [("p", [])] "p" = some []
    ∧ NatCodec.decode [] = .error .endOfFile
    ∧ IoErrorKind.endOfFile ≠ IoErrorKind.fileNotFound
    ∧ ((FileBox.«open» NatCodec ⟨[("p", [])], []⟩ "p").1 = .error .endOfFile
      ∧ IoErrorKind.endOfFile ≠ IoErrorKind.fileNotFound
      ∧ ∀ fb : FileBox Nat,
          (FileBox.«open» NatCodec ⟨[("p", [])], []⟩ "p").1 ≠ .ok fb) :=
  ⟨by simp [lookupFile], rfl, by decide,
    C6_corrupt_file_rejected NatCodec ⟨[("p", [])], []⟩ "p" [] .endOfFile
      (by simp [lookupFile]) rfl (by decide)⟩

/-- C7: if the destructor's encode step fails, or its write step fails,
the destructor panics (the `unwrap` / `expect` fire) instead of completing
normally — the failure is never silently swallowed. -/
theorem C7_flush_failure_panics {T : Type} (C : Codec T) (fb : FileBox T)
    (w : World) (writeFails : Bool) (e : IoErrorKind)
    (h : C.encode fb._val = .error e ∨ writeFails = true) :
    (FileBox.dropWith C writeFails fb w).1 = .panicked := by
  cases h with
  | inl he => simp [FileBox.dropWith, he]
  | inr hw =>
    cases henc : C.encode fb._val with
    | error e2 => simp [FileBox.dropWith, henc]
    | ok b => simp [FileBox.dropWith, henc, hw]

theorem C7_flush_failure_panics_witness :
    (NatCodec.encode ((⟨"p", 5⟩ : FileBox Nat))._val = .error .otherIo ∨ true = true)
    ∧ (FileBox.dropWith NatCodec true ⟨"p", 5⟩ ⟨[("p", [])], []⟩).1 = .panicked :=
  ⟨Or.inr rfl,
    C7_flush_failure_panics NatCodec ⟨"p", 5⟩ ⟨[("p", [])], []⟩ true .otherIo
      (Or.inr rfl)⟩

/-- C8: on a path with no file, `open_or_new` takes the `new` branch
(create with default); after the destructor flushes, the path exists,
and a second `open_or_new` is literally `open`, which succeeds with the
same stored value as the first call produced. -/
theorem C8_open_or_new_idempotent {T : Type} (C : Codec T) [Inhabited T]
    (w : World) (p : FbPath) (bd : Bytes)
    (habs : lookupFile w.files p = none)
    (henc : C.encode (default : T) = .ok bd)
    (hdec : C.decode bd = .ok (default : T)) :
    FileBox.open_or_new C w p = FileBox.new w p
    ∧ ∃ (fb fb' : FileBox T),
      (FileBox.open_or_new C w p).1 = .ok fb ∧ fb._val = (default : T)
      ∧ (FileBox.drop C fb (FileBox.open_or_new C w p).2).1 = .completed
      ∧ pathExists (FileBox.drop C fb (FileBox.open_or_new C w p).2).2 p = true
      ∧ FileBox.open_or_new C (FileBox.drop C fb (FileBox.open_or_new C w p).2).2 p
          = FileBox.«open» C (FileBox.drop C fb (FileBox.open_or_new C w p).2).2 p
      ∧ (FileBox.«open» C (FileBox.drop C fb (FileBox.open_or_new C w p).2).2 p).1
          = .ok fb'
      ∧ fb'._val = fb._val := by
  have h1 : FileBox.open_or_new C w p = FileBox.new (T := T) w p := by
    simp [FileBox.open_or_new, pathExists, habs]
  have h2 : pathExists (FileBox.drop C ⟨p, (default : T)⟩
      (FileBox.open_or_new C w p).2).2 p = true := by
    simp [h1, FileBox.new, FileBox.open_new, openTruncWrite, FileBox.drop,
      FileBox.dropWith, henc, writeHandle, lookupFile_setFile_self, pathExists]
  refine ⟨h1, ⟨p, (default : T)⟩, ⟨p, (default : T)⟩, ?_, rfl, ?_, h2, ?_, ?_, rfl⟩
  · simp [h1, FileBox.new, FileBox.open_new, openTruncWrite]
  · simp [FileBox.drop, FileBox.dropWith, henc]
  · generalize hW : (FileBox.drop C (⟨p, (default : T)⟩ : FileBox T)
      (FileBox.open_or_new C w p).2).2 = W2 at h2 ⊢
    simp [FileBox.open_or_new, h2]
  · simp [h1, FileBox.new, FileBox.open_new, openTruncWrite, FileBox.drop,
      FileBox.dropWith, henc, writeHandle, lookupFile_setFile_self,
      FileBox.«open», openRead, decode_from, readAll, hdec]

theorem C8_open_or_new_idempotent_witness :
    lookupFile ([] : List (FbPath × Bytes)) "p" = none
    ∧ NatCodec.encode (default : Nat) = .ok [1, 0]
    ∧ NatCodec.decode [1, 0] = .ok (default : Nat)
    ∧ (FileBox.open_or_new NatCodec ⟨[], []⟩ "p" = FileBox.new ⟨[], []⟩ "p"
      ∧ ∃ (fb fb' : FileBox Nat),
        (FileBox.open_or_new NatCodec ⟨[], []⟩ "p").1 = .ok fb
        ∧ fb._val = (default : Nat)
        ∧ (FileBox.drop NatCodec fb (FileBox.open_or_new NatCodec ⟨[], []⟩ "p").2).1
            = .completed
        ∧ pathExists
            (FileBox.drop NatCodec fb (FileBox.open_or_new NatCodec ⟨[], []⟩ "p").2).2 "p"
            = true
        ∧ FileBox.open_or_new NatCodec
            (FileBox.drop NatCodec fb (FileBox.open_or_new NatCodec ⟨[], []⟩ "p").2).2 "p"
            = FileBox.«open» NatCodec
                (FileBox.drop NatCodec fb (FileBox.open_or_new NatCodec ⟨[], []⟩ "p").2).2 "p"
        ∧ (FileBox.«open» NatCodec
            (FileBox.drop NatCodec fb (FileBox.open_or_new NatCodec ⟨[], []⟩ "p").2).2 "p").1
            = .ok fb'
        ∧ fb'._val = fb._val) :=
  ⟨rfl, rfl, rfl,
    C8_open_or_new_idempotent NatCodec ⟨[], []⟩ "p" [1, 0] rfl rfl rfl⟩
